import Mathlib

/-!
Shallow embedding of `packages/blockchain-api/src/blockscout.ts` (BlockscoutAPI).

Modelling conventions:
* Blockscout returns every field as a string.  Fields that the code only ever
  uses through exact `BigNumber` integer arithmetic (`value`, `gasUsed`,
  `gasPrice`) are modelled as `ℕ` (the code parses canonical decimal integer
  strings; `BigNumber` arithmetic on integers of these sizes is exact).
  `timeStamp` and `blockNumber` stay strings because the code sometimes keeps
  them as raw strings and sometimes converts them with
  `new BigNumber(x).toNumber()`, modelled by `toNum`.
* Monetary outputs (`value / 10^18`) are modelled in `ℚ`: `BigNumber`
  division of an integer by `10^18` needs at most 18 decimal places, below the
  default 20-place precision, hence exact; the final `.toNumber()` /
  `.toString()` renderings are abstracted to the exact rational.
* A thrown exception is modelled as `none`; a normal return of the built
  event list is `some events` (so `some []` means "returned, pushing no event").
* `this` (the mutable registry fields of the `BlockscoutAPI` instance) is an
  explicit `BlockscoutState`; the collaborator `getContractAddresses()` result
  is passed in as a `ContractAddresses` value; the module constants
  `FAUCET_ADDRESS` / `VERIFICATION_REWARDS_ADDRESS` from `./config` and the
  collaborator `formatCommentString` from `./utils` are passed in an `Env`.
* JavaScript `Array.prototype.sort` with a comparator is (since V8 7.0) a
  stable sort; it is embedded as `List.mergeSort` (stable) with the boolean
  order corresponding to the comparator.
-/

/-- One raw token-transfer row (`BlockscoutTransaction` in the source).
`from`/`to` are Lean keywords, so they are called `fromAddr`/`toAddr`. -/
structure BlockscoutTransaction where
  value : ℕ
  tokenSymbol : String
  toAddr : String
  timeStamp : String
  input : String
  hash : String
  gasUsed : ℕ
  gasPrice : ℕ
  fromAddr : String
  contractAddress : String
  blockNumber : String
  deriving DecidableEq, Repr

/-- JavaScript's ASCII `toLowerCase()` as a map over the characters (the
standard-library `String.toLower` is extensionally the same but is
implemented over byte positions, which the kernel cannot evaluate). -/
def jsToLower (s : String) : String := ⟨s.data.map Char.toLower⟩

/-- `new BigNumber(s).toNumber()` for the canonical decimal digit strings
the code feeds it (`timeStamp`, `blockNumber`). -/
def toNum (s : String) : ℕ :=
  s.data.foldl (fun acc c => acc * 10 + (c.toNat - 48)) 0

/-- `const WEI_PER_GOLD = Math.pow(10, 18)` (exactly representable, so the
exact rational is the faithful value). -/
def WEI_PER_GOLD : ℚ := 10 ^ 18

/-- Result shape of the `getContractAddresses()` collaborator. -/
structure ContractAddresses where
  tokenAddressMapping : List (String × String)
  attestationsAddress : String
  escrowAddress : String
  goldTokenAddress : String
  stableTokenAddress : String
  deriving DecidableEq, Repr

/-- The five lazily-populated registry fields of the `BlockscoutAPI`
instance (each `undefined` until populated, hence `Option`). -/
structure BlockscoutState where
  tokenAddressMapping : Option (List (String × String))
  attestationsAddress : Option String
  escrowAddress : Option String
  goldTokenAddress : Option String
  stableTokenAddress : Option String
  deriving DecidableEq, Repr

/-- JavaScript truthiness of a `string | undefined` field: `undefined` and
the empty string are falsy. -/
def truthyStr : Option String → Bool
  | none => false
  | some s => s ≠ ""

/-- `ensureTokenAddresses()`: returns the updated state and whether the
outbound `getContractAddresses()` fetch was performed.  The guard is the JS
truthiness conjunction of the five fields (an object is always truthy, a
string must also be non-empty). -/
def ensureTokenAddresses (s : BlockscoutState) (fetched : ContractAddresses) :
    BlockscoutState × Bool :=
  if s.tokenAddressMapping.isSome && truthyStr s.attestationsAddress &&
      truthyStr s.escrowAddress && truthyStr s.goldTokenAddress &&
      truthyStr s.stableTokenAddress then
    (s, false)
  else
    ({ tokenAddressMapping := some fetched.tokenAddressMapping,
       attestationsAddress := some fetched.attestationsAddress,
       escrowAddress := some fetched.escrowAddress,
       goldTokenAddress := some fetched.goldTokenAddress,
       stableTokenAddress := some fetched.stableTokenAddress }, true)

/-- `getTokenAtAddress(tokenAddress)`: lower-case the input, look it up in
the mapping; `none` models the two `throw` paths (missing mapping / missing
key). -/
def getTokenAtAddress (s : BlockscoutState) (tokenAddress : String) : Option String :=
  match s.tokenAddressMapping with
  | some mapping =>
    let lowerCaseTokenAddress := jsToLower tokenAddress
    mapping.lookup lowerCaseTokenAddress
  | none => none

/-- `getAttestationAddress()`: the `if (this.attestationsAddress)` guard is
JS truthiness, so an empty string also throws (`none`). -/
def getAttestationAddress (s : BlockscoutState) : Option String :=
  match s.attestationsAddress with
  | some a => if a = "" then none else some a
  | none => none

/-- `getEscrowAddress()`, same truthiness guard. -/
def getEscrowAddress (s : BlockscoutState) : Option String :=
  match s.escrowAddress with
  | some a => if a = "" then none else some a
  | none => none

/-- The closed `EventTypes` taxonomy from `schema.ts`. -/
inductive EventTypes where
  | EXCHANGE
  | RECEIVED
  | SENT
  | FAUCET
  | VERIFICATION_FEE
  | VERIFICATION_REWARD
  | ESCROW_SENT
  | ESCROW_RECEIVED
  deriving DecidableEq, Repr

/-- `resolveTransferEventType` from the source, with the two module-level
config constants (`FAUCET_ADDRESS`, `VERIFICATION_REWARDS_ADDRESS`) passed as
parameters; `none` models the final `throw new Error('No valid event type
found ')`. -/
def resolveTransferEventType (FAUCET_ADDRESS VERIFICATION_REWARDS_ADDRESS : String)
    (userAddress eventToAddress eventFromAddress attestationsAddress escrowAddress :
      String) : Option (EventTypes × String) :=
  if eventToAddress = userAddress ∧ eventFromAddress = FAUCET_ADDRESS then
    some (EventTypes.FAUCET, FAUCET_ADDRESS)
  else if eventToAddress = attestationsAddress ∧ eventFromAddress = userAddress then
    some (EventTypes.VERIFICATION_FEE, attestationsAddress)
  else if eventToAddress = userAddress ∧ eventFromAddress = VERIFICATION_REWARDS_ADDRESS then
    some (EventTypes.VERIFICATION_REWARD, VERIFICATION_REWARDS_ADDRESS)
  else if eventToAddress = userAddress ∧ eventFromAddress = escrowAddress then
    some (EventTypes.ESCROW_RECEIVED, eventFromAddress)
  else if eventToAddress = userAddress then
    some (EventTypes.RECEIVED, eventFromAddress)
  else if eventFromAddress = userAddress ∧ eventToAddress = escrowAddress then
    some (EventTypes.ESCROW_SENT, eventToAddress)
  else if eventFromAddress = userAddress then
    some (EventTypes.SENT, eventToAddress)
  else none

/-- The ordered 7-rule table of spec section 4.4, written from the spec's
words (first matching rule wins; counterparties as the spec names them), to
be compared with the implementation `resolveTransferEventType`. -/
def specTypeResolverTable (faucetAddr rewardsAddr viewer toA fromA att esc : String) :
    Option (EventTypes × String) :=
  if toA = viewer ∧ fromA = faucetAddr then some (EventTypes.FAUCET, faucetAddr)
  else if toA = att ∧ fromA = viewer then some (EventTypes.VERIFICATION_FEE, att)
  else if toA = viewer ∧ fromA = rewardsAddr then
    some (EventTypes.VERIFICATION_REWARD, rewardsAddr)
  else if toA = viewer ∧ fromA = esc then some (EventTypes.ESCROW_RECEIVED, fromA)
  else if toA = viewer then some (EventTypes.RECEIVED, fromA)
  else if fromA = viewer ∧ toA = esc then some (EventTypes.ESCROW_SENT, esc)
  else if fromA = viewer then some (EventTypes.SENT, toA)
  else none

/-- The collaborators that are module-level imports in the source: the two
config address constants and the comment decoder from `./utils`. -/
structure Env where
  FAUCET_ADDRESS : String
  VERIFICATION_REWARDS_ADDRESS : String
  formatCommentString : String → String

/-- Output shape of `getFeedEvents` / `getFeedRewards` (`EventInterface` /
`TransferEvent` in `schema.ts`): either an exchange or a plain transfer. -/
inductive FeedEvent where
  | exchange (timestamp : ℕ) (block : ℕ) (inSymbol : String) (inValue : ℚ)
      (outSymbol : String) (outValue : ℚ) (hash : String)
  | transfer (type : EventTypes) (timestamp : ℕ) (block : ℕ) (value : ℚ)
      (address : String) (comment : String) (symbol : String) (hash : String)
  deriving DecidableEq, Repr

/-- The `timestamp` field of a feed event (used by the final sort). -/
def FeedEvent.timestamp : FeedEvent → ℕ
  | .exchange ts _ _ _ _ _ _ => ts
  | .transfer _ ts _ _ _ _ _ _ => ts

/-- The `block` field of a feed event. -/
def FeedEvent.block : FeedEvent → ℕ
  | .exchange _ b _ _ _ _ _ => b
  | .transfer _ _ b _ _ _ _ _ => b

/-- A `MoneyAmount` of the token-scoped variant (`value` is the exact
rational behind the emitted decimal string). -/
structure MoneyAmount where
  value : ℚ
  currencyCode : String
  timestamp : ℕ
  deriving DecidableEq, Repr

/-- Output shape of `getTokenTransactions`.  Note `block` is the *raw*
`blockNumber` string (the source does not convert it here). -/
inductive TokenEvent where
  | exchange (timestamp : ℕ) (block : String) (amount : MoneyAmount)
      (makerAmount : MoneyAmount) (takerAmount : MoneyAmount) (hash : String)
  | transfer (type : EventTypes) (timestamp : ℕ) (block : String)
      (amount : MoneyAmount) (address : String) (comment : String) (hash : String)
  deriving DecidableEq, Repr

/-- The `timestamp` field of a token-scoped event. -/
def TokenEvent.timestamp : TokenEvent → ℕ
  | .exchange ts _ _ _ _ _ => ts
  | .transfer _ ts _ _ _ _ _ => ts

/-- The `amount` field of a token-scoped event (used by the final filter). -/
def TokenEvent.amount : TokenEvent → MoneyAmount
  | .exchange _ _ a _ _ _ => a
  | .transfer _ _ _ a _ _ _ => a

/-- The `block` field of a token-scoped event. -/
def TokenEvent.block : TokenEvent → String
  | .exchange _ b _ _ _ _ => b
  | .transfer _ _ b _ _ _ _ => b

/-- One step of building the insertion-ordered `txHashToEventTransactions`
map: `const currentTX = map.get(tx.hash) || []; currentTX.push(tx);
map.set(tx.hash, currentTX)` (a JS `Map` preserves first-insertion key
order). -/
def insertTx (m : List (String × List BlockscoutTransaction))
    (tx : BlockscoutTransaction) : List (String × List BlockscoutTransaction) :=
  match m with
  | [] => [(tx.hash, [tx])]
  | (h, g) :: rest =>
    if h = tx.hash then (h, g ++ [tx]) :: rest else (h, g) :: insertTx rest tx

/-- The grouping loop: partition the raw rows by `hash`, preserving row
order within a group and first-seen order of groups. -/
def groupByHash (txs : List BlockscoutTransaction) :
    List (String × List BlockscoutTransaction) :=
  txs.foldl insertTx []

/-- The `else` branch of the `getFeedEvents` classification: a plain token
transfer built from `transactions[0]` — decode the comment, resolve the
type and counterparty, look up the symbol (with the `|| 'unknown'`
fallback), and push one event. -/
def feedGroupTransfer (env : Env) (s : BlockscoutState) (userAddress txhash : String)
    (event : BlockscoutTransaction) : Option (List FeedEvent) :=
  let comment := if event.input = "" then "" else env.formatCommentString event.input
  let eventToAddress := jsToLower event.toAddr
  let eventFromAddress := jsToLower event.fromAddr
  match getAttestationAddress s, getEscrowAddress s with
  | some att, some esc =>
    match resolveTransferEventType env.FAUCET_ADDRESS env.VERIFICATION_REWARDS_ADDRESS
        userAddress eventToAddress eventFromAddress att esc with
    | some (type, address) =>
      match getTokenAtAddress s event.contractAddress with
      | some sym =>
        some [FeedEvent.transfer type (toNum event.timeStamp) (toNum event.blockNumber)
          ((event.value : ℚ) / WEI_PER_GOLD) address comment
          (if sym = "" then "unknown" else sym) txhash]
      | none => none
    | none => none
  | _, _ => none

/-- The classification body run by `getFeedEvents` for one group of same-hash
rows (`txHashToEventTransactions.forEach`): a 2-row group becomes an
`EXCHANGE`; any other group is treated as a plain transfer built from
`transactions[0]` (the empty group, impossible after grouping, would crash on
`transactions[0]` and is modelled as `none`). -/
def classifyFeedGroup (env : Env) (s : BlockscoutState) (userAddress txhash : String) :
    List BlockscoutTransaction → Option (List FeedEvent)
  | [t0, t1] =>
    let inEvent := if jsToLower t0.fromAddr = userAddress then t0 else t1
    let outEvent := if jsToLower t0.fromAddr = userAddress then t1 else t0
    match getTokenAtAddress s inEvent.contractAddress,
        getTokenAtAddress s outEvent.contractAddress with
    | some inSymbol, some outSymbol =>
      some [FeedEvent.exchange (toNum inEvent.timeStamp) (toNum inEvent.blockNumber)
        inSymbol ((inEvent.value : ℚ) / WEI_PER_GOLD)
        outSymbol ((outEvent.value : ℚ) / WEI_PER_GOLD) txhash]
    | _, _ => none
  | [] => none
  | event :: _ => feedGroupTransfer env s userAddress txhash event

/-- The boolean order behind the comparator
`(a, b) => new BigNumber(b.value).minus(new BigNumber(a.value)).toNumber()`
(descending by `value`; a stable JS sort with this comparator is the stable
sort for this order). -/
def byValueDesc (a b : BlockscoutTransaction) : Bool := decide (b.value ≤ a.value)

/-- The filter predicate of the token-scoped variant:
`tx.contractAddress.toLowerCase() === this.stableTokenAddress && tx.value !== '0'`
(comparison against `undefined` is false; `value !== '0'` on a canonical
decimal string is `value ≠ 0`). -/
def isStableTokenTx (s : BlockscoutState) (tx : BlockscoutTransaction) : Bool :=
  (match s.stableTokenAddress with
   | some a => decide (jsToLower tx.contractAddress = a)
   | none => false) && decide (tx.value ≠ 0)

/-- `stableTokenTxs` as the token-scoped variant computes it: filter the
group to non-zero stable-token rows, then stable-sort by `value`
descending. -/
def sortedStableTxs (s : BlockscoutState) (transactions : List BlockscoutTransaction) :
    List BlockscoutTransaction :=
  (transactions.filter (isStableTokenTx s)).mergeSort byValueDesc

/-- The `switch (stableTokenTxs.length)` of `getTokenTransactions` together
with the preceding `length < 1` guard: pick the row that is the real
transfer (`none` means no row is picked and the group produces no event).
`gasValue` is `gasUsed × gasPrice` of `stableTokenTxs[0]`; for a sorted
3-row list, a pair summing to the gas cost excludes the transfer row, and
the fallback is the first (highest-value) row. -/
def pickTransferTx : List BlockscoutTransaction → Option BlockscoutTransaction
  | [e] => some e
  | [t0, t1, t2] =>
    let gasValue := t0.gasUsed * t0.gasPrice
    if t0.value + t1.value = gasValue then some t2
    else if t0.value + t2.value = gasValue then some t1
    else some t0
  | _ => none

/-- The shared tail of the non-exchange branch of `getTokenTransactions`:
decode the comment, resolve the event type, and emit the signed
`MoneyAmount` event for the picked row (timestamps are multiplied by 1000;
`block` stays the raw `blockNumber` string). -/
def classifyPickedTokenTx (env : Env) (s : BlockscoutState)
    (userAddress txhash : String) (event : BlockscoutTransaction) :
    Option (List TokenEvent) :=
  let comment := if event.input = "" then "" else env.formatCommentString event.input
  let eventToAddress := jsToLower event.toAddr
  let eventFromAddress := jsToLower event.fromAddr
  match getAttestationAddress s, getEscrowAddress s with
  | some att, some esc =>
    match resolveTransferEventType env.FAUCET_ADDRESS env.VERIFICATION_REWARDS_ADDRESS
        userAddress eventToAddress eventFromAddress att esc with
    | some (type, address) =>
      let timestamp := toNum event.timeStamp * 1000
      some [TokenEvent.transfer type timestamp event.blockNumber
        ⟨(if eventFromAddress = userAddress then (-1 : ℚ) else 1) *
            (event.value : ℚ) / WEI_PER_GOLD,
          event.tokenSymbol, timestamp⟩
        address comment txhash]
    | none => none
  | _, _ => none

/-- The non-exchange branch of `getTokenTransactions` for one group: filter
to non-zero stable-token rows, sort by value descending, run the `switch`
on the filtered length (`pickTransferTx`), and classify the picked row;
`switch` sizes other than 1 and 3 (and the `length < 1` guard) return with
no event. -/
def tokenGroupFallback (env : Env) (s : BlockscoutState) (userAddress txhash : String)
    (g : List BlockscoutTransaction) : Option (List TokenEvent) :=
  match pickTransferTx (sortedStableTxs s g) with
  | none => some []
  | some event => classifyPickedTokenTx env s userAddress txhash event

/-- The classification body run by `getTokenTransactions` for one group of
same-hash rows.  A 2-row group becomes an `EXCHANGE` only when one leg's
`tokenSymbol` equals the queried token (`[inEvent, outEvent].find(...)`,
whose result is `=== inEvent` exactly when the in leg's symbol matches);
any other group goes through the stable-token filter, the descending value
sort, and the `switch` on the filtered length. -/
def classifyTokenGroup (env : Env) (s : BlockscoutState)
    (userAddress txhash : String) (token : String) :
    List BlockscoutTransaction → Option (List TokenEvent)
  | [t0, t1] =>
    let inEvent := if jsToLower t0.fromAddr = userAddress then t0 else t1
    let outEvent := if jsToLower t0.fromAddr = userAddress then t1 else t0
    if inEvent.tokenSymbol = token ∨ outEvent.tokenSymbol = token then
      let tokenEvent := if inEvent.tokenSymbol = token then inEvent else outEvent
      let sign : ℚ := if inEvent.tokenSymbol = token then -1 else 1
      let timestamp := toNum inEvent.timeStamp * 1000
      some [TokenEvent.exchange timestamp inEvent.blockNumber
        ⟨sign * (tokenEvent.value : ℚ) / WEI_PER_GOLD, tokenEvent.tokenSymbol, timestamp⟩
        ⟨(inEvent.value : ℚ) / WEI_PER_GOLD, inEvent.tokenSymbol, timestamp⟩
        ⟨(outEvent.value : ℚ) / WEI_PER_GOLD, outEvent.tokenSymbol, timestamp⟩
        txhash]
    else some []
  | g => tokenGroupFallback env s userAddress txhash g

/-- The `forEach` loop that classifies every group in order and pushes the
produced events: a classification `throw` (`none`) anywhere aborts the whole
call. -/
def concatMapM {α β : Type} (f : α → Option (List β)) : List α → Option (List β)
  | [] => some []
  | x :: xs =>
    match f x with
    | none => none
    | some es =>
      match concatMapM f xs with
      | none => none
      | some rest => some (es ++ rest)

/-- The boolean order behind the final sort comparator
`(a, b) => b.timestamp - a.timestamp` on feed events (descending by
timestamp; the JS sort is stable). -/
def feedTsDesc (a b : FeedEvent) : Bool := decide (b.timestamp ≤ a.timestamp)

/-- The same comparator order for the token-scoped events. -/
def tokenTsDesc (a b : TokenEvent) : Bool := decide (b.timestamp ≤ a.timestamp)

/-- `getFeedEvents` up to (but not including) the final sort: group the raw
rows, run `ensureTokenAddresses`, and classify every group in
first-seen-hash order, concatenating the pushed events. -/
def buildFeedEvents (env : Env) (s₀ : BlockscoutState) (fetched : ContractAddresses)
    (address : String) (rawTransactions : List BlockscoutTransaction) :
    Option (List FeedEvent) :=
  let userAddress := jsToLower address
  let s := (ensureTokenAddresses s₀ fetched).1
  concatMapM (fun p => classifyFeedGroup env s userAddress p.1 p.2)
    (groupByHash rawTransactions)

/-- `getFeedEvents`: the built events, sorted by timestamp descending
(`events.sort((a, b) => b.timestamp - a.timestamp)`). -/
def getFeedEvents (env : Env) (s₀ : BlockscoutState) (fetched : ContractAddresses)
    (address : String) (rawTransactions : List BlockscoutTransaction) :
    Option (List FeedEvent) :=
  (buildFeedEvents env s₀ fetched address rawTransactions).map
    (fun events => events.mergeSort feedTsDesc)

/-- `getFeedRewards` up to the final sort: keep only rows whose lower-cased
`from` is the verification-rewards address and emit one
`VERIFICATION_REWARD` event per row (the registry symbol lookup can still
throw). -/
def buildFeedRewards (env : Env) (s₀ : BlockscoutState) (fetched : ContractAddresses)
    (rawTransactions : List BlockscoutTransaction) : Option (List FeedEvent) :=
  let s := (ensureTokenAddresses s₀ fetched).1
  concatMapM
    (fun t =>
      match getTokenAtAddress s t.contractAddress with
      | some symbol =>
        some [FeedEvent.transfer EventTypes.VERIFICATION_REWARD (toNum t.timeStamp)
          (toNum t.blockNumber) ((t.value : ℚ) / WEI_PER_GOLD)
          env.VERIFICATION_REWARDS_ADDRESS
          (if t.input = "" then "" else env.formatCommentString t.input) symbol t.hash]
      | none => none)
    (rawTransactions.filter
      (fun t => jsToLower t.fromAddr = env.VERIFICATION_REWARDS_ADDRESS))

/-- `getFeedRewards`: the built rewards, sorted by timestamp descending. -/
def getFeedRewards (env : Env) (s₀ : BlockscoutState) (fetched : ContractAddresses)
    (rawTransactions : List BlockscoutTransaction) : Option (List FeedEvent) :=
  (buildFeedRewards env s₀ fetched rawTransactions).map
    (fun rewards => rewards.mergeSort feedTsDesc)

/-- `getTokenTransactions` up to the final filter and sort. -/
def buildTokenEvents (env : Env) (s₀ : BlockscoutState) (fetched : ContractAddresses)
    (address token : String) (rawTransactions : List BlockscoutTransaction) :
    Option (List TokenEvent) :=
  let userAddress := jsToLower address
  let s := (ensureTokenAddresses s₀ fetched).1
  concatMapM (fun p => classifyTokenGroup env s userAddress p.1 token p.2)
    (groupByHash rawTransactions)

/-- `getTokenTransactions`: the built events, filtered to
`event.amount.currencyCode === args.token` and then sorted by timestamp
descending. -/
def getTokenTransactions (env : Env) (s₀ : BlockscoutState) (fetched : ContractAddresses)
    (address token : String) (rawTransactions : List BlockscoutTransaction) :
    Option (List TokenEvent) :=
  (buildTokenEvents env s₀ fetched address token rawTransactions).map
    (fun events =>
      (events.filter (fun e => e.amount.currencyCode == token)).mergeSort tokenTsDesc)

/-- Proof helper: lower-case the three address fields of a row.  Two rows
"differ only in letter case of their address fields" exactly when their
`normTx` images are equal. -/
def normTx (tx : BlockscoutTransaction) : BlockscoutTransaction :=
  { tx with
    fromAddr := jsToLower tx.fromAddr,
    toAddr := jsToLower tx.toAddr,
    contractAddress := jsToLower tx.contractAddress }

/-- Proof helper: the stable-token filter as seen by already-normalised
rows (`isStableTokenTx s tx = isStableNormedTx s (normTx tx)`). -/
def isStableNormedTx (s : BlockscoutState) (tx : BlockscoutTransaction) : Bool :=
  (match s.stableTokenAddress with
   | some a => decide (tx.contractAddress = a)
   | none => false) && decide (tx.value ≠ 0)

/-- Proof helper: `normTx` lifted to one entry of the hash-to-rows map. -/
def normGroup (p : String × List BlockscoutTransaction) :
    String × List BlockscoutTransaction :=
  (p.1, p.2.map normTx)

/-- Sample collaborator environment for concrete evaluations. -/
def sampleEnv : Env := ⟨"0xfaucet", "0xrewards", fun _ => "decoded"⟩

/-- Sample fully-populated registry state for concrete evaluations. -/
def sampleState : BlockscoutState :=
  ⟨some [("0xgold", "cGLD"), ("0xstable", "cUSD")], some "0xatt", some "0xesc",
    some "0xgold", some "0xstable"⟩

/-- Sample `getContractAddresses()` result for concrete evaluations. -/
def sampleAddresses : ContractAddresses :=
  ⟨[("0xgold", "cGLD"), ("0xstable", "cUSD")], "0xatt", "0xesc", "0xgold", "0xstable"⟩

/-- A registry state whose five fields are all set (`some`) but whose
escrow address is the empty string (JS-falsy). -/
def emptyEscrowState : BlockscoutState :=
  ⟨some [("0xgold", "cGLD")], some "0xatt", some "", some "0xgold", some "0xstable"⟩

/-- A second `getContractAddresses()` result, disjoint from
`emptyEscrowState`, to observe overwriting. -/
def sampleAddresses2 : ContractAddresses :=
  ⟨[("0xg2", "cGLD")], "0xatt2", "0xesc2", "0xg2", "0xstable2"⟩

/-- A gold-token transfer row sent by `0xaaa`. -/
def goldRow : BlockscoutTransaction :=
  ⟨10 ^ 18, "cGLD", "0xbbb", "10", "", "h1", 5, 7, "0xAAA", "0xGOLD", "99"⟩

/-- A stable-token transfer row sent by `0xaaa`. -/
def stableRow : BlockscoutTransaction :=
  ⟨10 ^ 18, "cUSD", "0xbbb", "10", "", "h1", 5, 7, "0xAAA", "0xStable", "99"⟩

/-- The same row with the letter case of its three address fields changed. -/
def stableRowUpper : BlockscoutTransaction :=
  ⟨10 ^ 18, "cUSD", "0xBBB", "10", "", "h1", 5, 7, "0xaaa", "0XSTABLE", "99"⟩

/-- First row of a two-row group in which neither `from` is `0xaaa`. -/
def strangerRow0 : BlockscoutTransaction :=
  ⟨2 * 10 ^ 18, "cGLD", "0xccc", "10", "", "h2", 5, 7, "0xbbb", "0xgold", "99"⟩

/-- Second row of that two-row group. -/
def strangerRow1 : BlockscoutTransaction :=
  ⟨10 ^ 18, "cUSD", "0xddd", "10", "", "h2", 5, 7, "0xccc", "0xstable", "99"⟩

/-- Three same-hash stable-token rows (values 30, 20, 7) whose two top
values sum to the gas cost `10 × 5 = 50`. -/
def feeRow0 : BlockscoutTransaction :=
  ⟨30, "cUSD", "0xb", "10", "", "h3", 10, 5, "0xaaa", "0xstable", "99"⟩

/-- Second fee row (value 20). -/
def feeRow1 : BlockscoutTransaction :=
  ⟨20, "cUSD", "0xb", "10", "", "h3", 10, 5, "0xaaa", "0xstable", "99"⟩

/-- Third fee row (value 7): the real transfer of the triple. -/
def feeRow2 : BlockscoutTransaction :=
  ⟨7, "cUSD", "0xb", "10", "", "h3", 10, 5, "0xaaa", "0xstable", "99"⟩

/-- Every element of a `concatMapM` result was produced by some input. -/
theorem concatMapM_mem {α β : Type} (f : α → Option (List β)) :
    ∀ (xs : List α) (l : List β), concatMapM f xs = some l →
      ∀ b ∈ l, ∃ x ∈ xs, ∃ es, f x = some es ∧ b ∈ es := by
  intro xs
  induction xs with
  | nil =>
    intro l hl b hb
    simp only [concatMapM, Option.some.injEq] at hl
    subst hl
    simp at hb
  | cons x xs ih =>
    intro l hl b hb
    simp only [concatMapM] at hl
    cases hfx : f x with
    | none => rw [hfx] at hl; simp at hl
    | some es =>
      rw [hfx] at hl
      cases hrec : concatMapM f xs with
      | none => rw [hrec] at hl; simp at hl
      | some rest =>
        rw [hrec] at hl
        simp only [Option.some.injEq] at hl
        subst hl
        rcases List.mem_append.mp hb with h | h
        · exact ⟨x, List.mem_cons_self x xs, es, hfx, h⟩
        · rcases ih rest hrec b h with ⟨y, hy, es', hfy, hbin⟩
          exact ⟨y, List.mem_cons_of_mem x hy, es', hfy, hbin⟩

/-- A stable sort by a descending numeric key: the output is a permutation
of the input, it is pairwise descending, and for every fixed key value the
output preserves exactly the input's sublist of that key (stability). -/
theorem mergeSort_desc_key_spec {α : Type} (key : α → ℕ) (le : α → α → Bool)
    (hle : ∀ a b, le a b = decide (key b ≤ key a)) (l : List α) :
    (l.mergeSort le).Perm l ∧
    List.Pairwise (fun a b => key b ≤ key a) (l.mergeSort le) ∧
    ∀ t, (l.mergeSort le).filter (fun e => key e == t) =
      l.filter (fun e => key e == t) := by
  have htrans : ∀ a b c : α, le a b = true → le b c = true → le a c = true := by
    intro a b c hab hbc
    rw [hle] at hab hbc ⊢
    simp only [decide_eq_true_eq] at hab hbc ⊢
    omega
  have htotal : ∀ a b : α, (le a b || le b a) = true := by
    intro a b
    rw [hle, hle]
    rcases Nat.le_total (key a) (key b) with h | h <;> simp [h]
  refine ⟨List.mergeSort_perm l le, ?_, ?_⟩
  · exact (List.sorted_mergeSort htrans htotal l).imp
      (fun h => by
        have := of_decide_eq_true (by rw [← hle _ _]; exact h)
        exact this)
  · intro t
    have hsubl : List.Sublist (l.filter (fun e => key e == t)) l :=
      List.filter_sublist l
    have hpw : List.Pairwise (fun a b => le a b = true)
        (l.filter (fun e => key e == t)) := by
      apply List.pairwise_of_forall_mem_list
      intro a ha b hb
      have ha' := (List.mem_filter.mp ha).2
      have hb' := (List.mem_filter.mp hb).2
      simp only [beq_iff_eq] at ha' hb'
      rw [hle]
      simp [ha', hb']
    have hsub2 : List.Sublist (l.filter (fun e => key e == t)) (l.mergeSort le) :=
      List.sublist_mergeSort htrans htotal hpw hsubl
    have hperm : ((l.mergeSort le).filter (fun e => key e == t)).Perm
        (l.filter (fun e => key e == t)) :=
      (List.mergeSort_perm l le).filter (fun e => key e == t)
    have hsub3 : List.Sublist (l.filter (fun e => key e == t))
        ((l.mergeSort le).filter (fun e => key e == t)) := by
      have h := hsub2.filter (fun e => key e == t)
      rwa [List.filter_filter,
        (by funext a; simp : (fun a => (key a == t) && (key a == t)) =
          (fun e : α => key e == t))] at h
    exact (hsub3.eq_of_length hperm.length_eq.symm).symm

/-- C1: `resolveTransferEventType` agrees with the ordered 7-rule table of
spec section 4.4 (first matching rule wins) at every input, and it fails
(throws, i.e. returns `none`) exactly when the viewing address is neither the
receiver nor the sender of the row. -/
theorem resolveTransferEventType_matches_spec_table
    (fau rew user toA fromA att esc : String) :
    resolveTransferEventType fau rew user toA fromA att esc =
      specTypeResolverTable fau rew user toA fromA att esc ∧
    (resolveTransferEventType fau rew user toA fromA att esc = none ↔
      toA ≠ user ∧ fromA ≠ user) := by
  unfold resolveTransferEventType specTypeResolverTable
  constructor
  · split_ifs <;> simp_all
  · split_ifs <;> simp_all

/-- C6 counterexample: a registry state whose five fields are all set, with
the escrow address the (JS-falsy) empty string; a further
`ensureTokenAddresses` call *does* perform the outbound fetch and overwrites
the fields. -/
theorem ensureTokenAddresses_refetches_on_set_state :
    emptyEscrowState.tokenAddressMapping.isSome = true ∧
    emptyEscrowState.attestationsAddress.isSome = true ∧
    emptyEscrowState.escrowAddress.isSome = true ∧
    emptyEscrowState.goldTokenAddress.isSome = true ∧
    emptyEscrowState.stableTokenAddress.isSome = true ∧
    (ensureTokenAddresses emptyEscrowState sampleAddresses2).2 = true ∧
    (ensureTokenAddresses emptyEscrowState sampleAddresses2).1.escrowAddress ≠
      emptyEscrowState.escrowAddress := by
  decide

/-- C6 (amended): once the registry is populated with JS-truthy values
(mapping present, the four address strings non-empty), a further
`ensureTokenAddresses` call performs no fetch and leaves the state
unchanged. -/
theorem ensureTokenAddresses_noop_of_truthy (s : BlockscoutState)
    (fetched : ContractAddresses)
    (hm : s.tokenAddressMapping.isSome = true)
    (ha : truthyStr s.attestationsAddress = true)
    (he : truthyStr s.escrowAddress = true)
    (hg : truthyStr s.goldTokenAddress = true)
    (hs : truthyStr s.stableTokenAddress = true) :
    ensureTokenAddresses s fetched = (s, false) := by
  unfold ensureTokenAddresses
  simp [hm, ha, he, hg, hs]

/-- C6 witness: the no-op hypothesis is satisfiable on a concrete
fully-populated state. -/
theorem ensureTokenAddresses_noop_of_truthy_witness :
    ensureTokenAddresses sampleState sampleAddresses2 = (sampleState, false) :=
  ensureTokenAddresses_noop_of_truthy sampleState sampleAddresses2
    (by decide) (by decide) (by decide) (by decide) (by decide)

/-- C2 counterexample: a two-row group in which *neither* row's lower-cased
`from` is the viewing address `0xaaa`.  The emitted exchange takes its in
leg (timestamp, block, `inSymbol`, `inValue`) from the *second* row
(`strangerRow1`, value 1 cUSD), not the first row (`strangerRow0`, value
2 cGLD) as the claim states. -/
theorem classifyFeedGroup_pair_neither_matches_second_is_in :
    jsToLower strangerRow0.fromAddr ≠ "0xaaa" ∧
    jsToLower strangerRow1.fromAddr ≠ "0xaaa" ∧
    classifyFeedGroup sampleEnv sampleState "0xaaa" "h2" [strangerRow0, strangerRow1] =
      some [FeedEvent.exchange (toNum strangerRow1.timeStamp)
        (toNum strangerRow1.blockNumber) "cUSD" ((strangerRow1.value : ℚ) / WEI_PER_GOLD)
        "cGLD" ((strangerRow0.value : ℚ) / WEI_PER_GOLD) "h2"] ∧
    (strangerRow1.value : ℚ) / WEI_PER_GOLD = 1 ∧
    (strangerRow0.value : ℚ) / WEI_PER_GOLD = 2 ∧
    (1 : ℚ) ≠ 2 := by
  refine ⟨by decide, by decide, by rfl, ?_, ?_, by norm_num⟩ <;>
    norm_num [strangerRow0, strangerRow1, WEI_PER_GOLD]

/-- C2 (amended): in a two-row group the first row is the in leg exactly
when *its* lower-cased `from` equals the viewing address (so when both rows
match, the first is in); in every other case — including when neither row
matches — the second row is the in leg and the first the out leg. -/
theorem classifyFeedGroup_pair_in_leg (env : Env) (s : BlockscoutState)
    (user txh : String) (t0 t1 : BlockscoutTransaction) (sym0 sym1 : String)
    (h0 : getTokenAtAddress s t0.contractAddress = some sym0)
    (h1 : getTokenAtAddress s t1.contractAddress = some sym1) :
    classifyFeedGroup env s user txh [t0, t1] =
      if jsToLower t0.fromAddr = user then
        some [FeedEvent.exchange (toNum t0.timeStamp) (toNum t0.blockNumber) sym0
          ((t0.value : ℚ) / WEI_PER_GOLD) sym1 ((t1.value : ℚ) / WEI_PER_GOLD) txh]
      else
        some [FeedEvent.exchange (toNum t1.timeStamp) (toNum t1.blockNumber) sym1
          ((t1.value : ℚ) / WEI_PER_GOLD) sym0 ((t0.value : ℚ) / WEI_PER_GOLD) txh] := by
  by_cases hc : jsToLower t0.fromAddr = user <;>
    simp [classifyFeedGroup, hc, h0, h1]

/-- C2 witness: the amended in-leg rule evaluated on a concrete two-row
group whose first row is sent by the viewer. -/
theorem classifyFeedGroup_pair_in_leg_witness :
    classifyFeedGroup sampleEnv sampleState "0xaaa" "hW" [stableRow, goldRow] =
      some [FeedEvent.exchange (toNum stableRow.timeStamp) (toNum stableRow.blockNumber)
        "cUSD" ((stableRow.value : ℚ) / WEI_PER_GOLD)
        "cGLD" ((goldRow.value : ℚ) / WEI_PER_GOLD) "hW"] := by
  have h := classifyFeedGroup_pair_in_leg sampleEnv sampleState "0xaaa" "hW"
    stableRow goldRow "cUSD" "cGLD" (by decide) (by decide)
  rw [h, if_pos (by decide : jsToLower stableRow.fromAddr = "0xaaa")]

/-- C8: for a two-row group the emitted `EXCHANGE` carries `inValue` and
`outValue` equal to the in leg's and the out leg's raw `value` divided
exactly by `10^18` (as exact rationals), and its timestamp and block come
from the in leg (the in/out legs being selected as the code selects them). -/
theorem classifyFeedGroup_exchange_values_exact (env : Env) (s : BlockscoutState)
    (user txh : String) (t0 t1 inE outE : BlockscoutTransaction) (symIn symOut : String)
    (hin : inE = if jsToLower t0.fromAddr = user then t0 else t1)
    (hout : outE = if jsToLower t0.fromAddr = user then t1 else t0)
    (hsin : getTokenAtAddress s inE.contractAddress = some symIn)
    (hsout : getTokenAtAddress s outE.contractAddress = some symOut) :
    classifyFeedGroup env s user txh [t0, t1] =
      some [FeedEvent.exchange (toNum inE.timeStamp) (toNum inE.blockNumber) symIn
        ((inE.value : ℚ) / WEI_PER_GOLD) symOut ((outE.value : ℚ) / WEI_PER_GOLD) txh] := by
  subst hin hout
  by_cases hc : jsToLower t0.fromAddr = user <;>
    simp_all [classifyFeedGroup]

/-- C8 witness: the exact-division exchange shape evaluated on a concrete
two-row group, with the division results computed. -/
theorem classifyFeedGroup_exchange_values_exact_witness :
    classifyFeedGroup sampleEnv sampleState "0xaaa" "hX" [strangerRow0, strangerRow1] =
      some [FeedEvent.exchange 10 99 "cUSD" 1 "cGLD" 2 "hX"] := by
  have h := classifyFeedGroup_exchange_values_exact sampleEnv sampleState "0xaaa" "hX"
    strangerRow0 strangerRow1 strangerRow1 strangerRow0 "cUSD" "cGLD"
    (by decide) (by decide) (by decide) (by decide)
  rw [h]
  have h1 : (strangerRow1.value : ℚ) / WEI_PER_GOLD = 1 := by
    norm_num [strangerRow1, WEI_PER_GOLD]
  have h0 : (strangerRow0.value : ℚ) / WEI_PER_GOLD = 2 := by
    norm_num [strangerRow0, WEI_PER_GOLD]
  rw [h0, h1]
  decide

/-- The `switch` picks a row only for filtered lengths 1 and 3. -/
theorem pickTransferTx_eq_none (l : List BlockscoutTransaction)
    (h1 : l.length ≠ 1) (h3 : l.length ≠ 3) : pickTransferTx l = none := by
  cases l with
  | nil => rfl
  | cons a t =>
    cases t with
    | nil => simp at h1
    | cons b t2 =>
      cases t2 with
      | nil => rfl
      | cons c t3 =>
        cases t3 with
        | nil => simp at h3
        | cons d t4 => rfl

/-- A picked row is one of the filtered rows. -/
theorem pickTransferTx_mem (l : List BlockscoutTransaction)
    (e : BlockscoutTransaction) (h : pickTransferTx l = some e) : e ∈ l := by
  cases l with
  | nil => simp [pickTransferTx] at h
  | cons a t =>
    cases t with
    | nil =>
      simp only [pickTransferTx, Option.some.injEq] at h
      subst h
      exact List.mem_cons_self a []
    | cons b t2 =>
      cases t2 with
      | nil => simp [pickTransferTx] at h
      | cons c t3 =>
        cases t3 with
        | nil =>
          simp only [pickTransferTx] at h
          split at h <;> [skip; split at h] <;>
            (simp only [Option.some.injEq] at h; subst h; simp)
        | cons d t4 => simp [pickTransferTx] at h

/-- Shared helper: whenever the stable filter keeps a number of rows other
than 1 or 3, a non-pair group produces no token-scoped event. -/
theorem tokenGroup_no_event_unless_1_or_3 (env : Env) (s : BlockscoutState)
    (user txh tok : String) (g : List BlockscoutTransaction)
    (hlen : g.length ≠ 2)
    (h1 : (g.filter (isStableTokenTx s)).length ≠ 1)
    (h3 : (g.filter (isStableTokenTx s)).length ≠ 3) :
    classifyTokenGroup env s user txh tok g = some [] := by
  have hl : (sortedStableTxs s g).length = (g.filter (isStableTokenTx s)).length := by
    unfold sortedStableTxs
    exact List.length_mergeSort _
  have hne : pickTransferTx (sortedStableTxs s g) = none :=
    pickTransferTx_eq_none _ (by rw [hl]; exact h1) (by rw [hl]; exact h3)
  have hfb : tokenGroupFallback env s user txh g = some [] := by
    unfold tokenGroupFallback
    rw [hne]
  cases g with
  | nil => exact hfb
  | cons a t =>
    cases t with
    | nil => exact hfb
    | cons b t2 =>
      cases t2 with
      | nil => simp at hlen
      | cons c t3 => exact hfb

/-- C4 counterexample: four rows sharing hash `h1` form one group, and the
general feed variant *does* emit an event for it (a transfer built from the
first row), contradicting "no event for group sizes other than 1, 2, 3". -/
theorem classifyFeedGroup_four_rows_emits_event :
    groupByHash [goldRow, goldRow, goldRow, goldRow] =
      [("h1", [goldRow, goldRow, goldRow, goldRow])] ∧
    classifyFeedGroup sampleEnv sampleState "0xaaa" "h1"
        [goldRow, goldRow, goldRow, goldRow] =
      some [FeedEvent.transfer EventTypes.SENT (toNum goldRow.timeStamp)
        (toNum goldRow.blockNumber) ((goldRow.value : ℚ) / WEI_PER_GOLD)
        "0xbbb" "" "cGLD" "h1"] := by
  exact ⟨by decide, by rfl⟩

/-- C4 (amended): for a group whose size is not 2, the general feed variant
classifies the group exactly like the singleton of its first row (so it
emits one transfer event whenever that row is classifiable), while the
token-scoped variant emits no event whenever the stable-token filter keeps
a number of rows other than 1 or 3 — in particular for a four-row group
whose filter does not keep exactly 1 or 3 rows, only the token-scoped
variant emits nothing. -/
theorem classify_group_size_other_than_pair (env : Env) (s : BlockscoutState)
    (user txh tok : String) (e : BlockscoutTransaction)
    (rest g : List BlockscoutTransaction)
    (hA : (e :: rest).length ≠ 2)
    (hBlen : g.length ≠ 2)
    (hB1 : (g.filter (isStableTokenTx s)).length ≠ 1)
    (hB3 : (g.filter (isStableTokenTx s)).length ≠ 3) :
    classifyFeedGroup env s user txh (e :: rest) =
      classifyFeedGroup env s user txh [e] ∧
    classifyTokenGroup env s user txh tok g = some [] := by
  constructor
  · cases rest with
    | nil => rfl
    | cons b t =>
      cases t with
      | nil => simp at hA
      | cons c t2 => rfl
  · exact tokenGroup_no_event_unless_1_or_3 env s user txh tok g hBlen hB1 hB3

/-- C4 witness: the amended statement evaluated on a four-row gold-token
group (feed variant behaves like the first row alone; token variant emits
nothing because no row passes the stable filter). -/
theorem classify_group_size_other_than_pair_witness :
    classifyFeedGroup sampleEnv sampleState "0xaaa" "h1"
        [goldRow, goldRow, goldRow, goldRow] =
      classifyFeedGroup sampleEnv sampleState "0xaaa" "h1" [goldRow] ∧
    classifyTokenGroup sampleEnv sampleState "0xaaa" "h1" "cGLD"
        [goldRow, goldRow, goldRow, goldRow] = some [] :=
  classify_group_size_other_than_pair sampleEnv sampleState "0xaaa" "h1" "cGLD"
    goldRow [goldRow, goldRow, goldRow] [goldRow, goldRow, goldRow, goldRow]
    (by decide) (by decide) (by decide) (by decide)

/-- C10: in the token-scoped variant, a group of size other than 2 is first
reduced to its non-zero stable-token rows, and when the number of surviving
rows is neither 1 nor 3 the group produces no event (and no failure) — in
particular a single-row group whose row is not a non-zero stable-token
transfer produces no event even if its token is the queried one. -/
theorem classifyTokenGroup_requires_1_or_3_stable_rows (env : Env)
    (s : BlockscoutState) (user txh tok : String) (g : List BlockscoutTransaction)
    (hlen : g.length ≠ 2)
    (h1 : (g.filter (isStableTokenTx s)).length ≠ 1)
    (h3 : (g.filter (isStableTokenTx s)).length ≠ 3) :
    classifyTokenGroup env s user txh tok g = some [] :=
  tokenGroup_no_event_unless_1_or_3 env s user txh tok g hlen h1 h3

/-- C10 witness: a lone gold-token row (whose token is even the queried
one) survives the stable filter with 0 rows and yields no event. -/
theorem classifyTokenGroup_requires_1_or_3_stable_rows_witness :
    classifyTokenGroup sampleEnv sampleState "0xaaa" "h1" "cGLD" [goldRow] = some [] ∧
    goldRow.tokenSymbol = "cGLD" ∧
    List.filter (isStableTokenTx sampleState) [goldRow] = [] :=
  ⟨classifyTokenGroup_requires_1_or_3_stable_rows sampleEnv sampleState "0xaaa" "h1"
      "cGLD" [goldRow] (by decide) (by decide) (by decide),
    by decide, by decide⟩

/-- C3: for a filtered-and-sorted group of exactly three stable-token rows
(sharing one receipt, i.e. one `gasUsed × gasPrice`), whichever pair of rows
sums exactly to the gas cost, the row excluded from that pair is the one the
`switch` selects as the real transfer; if no pair sums to the gas cost, the
selected row is the first, which the descending value sort makes a
highest-value row. -/
theorem pickTransferTx_gas_pair_excluded (s : BlockscoutState)
    (g : List BlockscoutTransaction) (a b c : BlockscoutTransaction)
    (hsort : sortedStableTxs s g = [a, b, c])
    (hgb : b.gasUsed * b.gasPrice = a.gasUsed * a.gasPrice)
    (hgc : c.gasUsed * c.gasPrice = a.gasUsed * a.gasPrice) :
    (a.value + b.value = a.gasUsed * a.gasPrice →
      pickTransferTx (sortedStableTxs s g) = some c) ∧
    (a.value + b.value ≠ a.gasUsed * a.gasPrice →
      a.value + c.value = a.gasUsed * a.gasPrice →
      pickTransferTx (sortedStableTxs s g) = some b) ∧
    (a.value + b.value ≠ a.gasUsed * a.gasPrice →
      a.value + c.value ≠ a.gasUsed * a.gasPrice →
      b.value + c.value = a.gasUsed * a.gasPrice →
      pickTransferTx (sortedStableTxs s g) = some a) ∧
    (a.value + b.value ≠ a.gasUsed * a.gasPrice →
      a.value + c.value ≠ a.gasUsed * a.gasPrice →
      b.value + c.value ≠ a.gasUsed * a.gasPrice →
      pickTransferTx (sortedStableTxs s g) = some a ∧
        b.value ≤ a.value ∧ c.value ≤ a.value) := by
  have hpw : List.Pairwise (fun x y : BlockscoutTransaction => y.value ≤ x.value)
      [a, b, c] := by
    have hspec := mergeSort_desc_key_spec (fun tx : BlockscoutTransaction => tx.value)
      byValueDesc (fun _ _ => rfl) (g.filter (isStableTokenTx s))
    have := hspec.2.1
    rw [show (g.filter (isStableTokenTx s)).mergeSort byValueDesc =
        sortedStableTxs s g from rfl, hsort] at this
    exact this
  have hba : b.value ≤ a.value := by
    have := List.pairwise_cons.mp hpw
    exact this.1 b (by simp)
  have hca : c.value ≤ a.value := by
    have := List.pairwise_cons.mp hpw
    exact this.1 c (by simp)
  rw [hsort]
  refine ⟨?_, ?_, ?_, ?_⟩
  · intro h
    simp [pickTransferTx, h]
  · intro h h2
    simp [pickTransferTx, h, h2]
  · intro h h2 _
    simp [pickTransferTx, h, h2]
  · intro h h2 _
    exact ⟨by simp [pickTransferTx, h, h2], hba, hca⟩

/-- C3 witness: the heuristic on a concrete sorted triple with values
30, 20, 7 and gas cost `10 × 5 = 50`: the pair 30 + 20 matches, so the
excluded row (value 7) is selected. -/
theorem pickTransferTx_gas_pair_excluded_witness :
    pickTransferTx (sortedStableTxs sampleState [feeRow0, feeRow1, feeRow2]) =
      some feeRow2 := by
  have hf : List.filter (isStableTokenTx sampleState) [feeRow0, feeRow1, feeRow2] =
      [feeRow0, feeRow1, feeRow2] := by decide
  have hsort : sortedStableTxs sampleState [feeRow0, feeRow1, feeRow2] =
      [feeRow0, feeRow1, feeRow2] := by
    unfold sortedStableTxs
    rw [hf]
    exact List.mergeSort_of_sorted (by decide)
  exact (pickTransferTx_gas_pair_excluded sampleState _ feeRow0 feeRow1 feeRow2
    hsort rfl rfl).1 (by decide)

theorem feedGroupTransfer_units (env : Env) (s : BlockscoutState)
    (user txh : String) (t0 : BlockscoutTransaction)
    (l : List FeedEvent) (e : FeedEvent)
    (hc : feedGroupTransfer env s user txh t0 = some l) (he : e ∈ l) :
    e.timestamp = toNum t0.timeStamp ∧ e.block = toNum t0.blockNumber := by
  simp only [feedGroupTransfer] at hc
  split at hc
  · split at hc
    · split at hc
      · simp only [Option.some.injEq] at hc
        subst hc
        simp only [List.mem_singleton] at he
        subst he
        exact ⟨rfl, rfl⟩
      · simp at hc
    · simp at hc
  · simp at hc

theorem classifyPickedTokenTx_units (env : Env) (s : BlockscoutState)
    (user txh : String) (ev : BlockscoutTransaction)
    (l : List TokenEvent) (e : TokenEvent)
    (hc : classifyPickedTokenTx env s user txh ev = some l) (he : e ∈ l) :
    e.timestamp = toNum ev.timeStamp * 1000 ∧ e.block = ev.blockNumber ∧
      e.amount.timestamp = e.timestamp := by
  simp only [classifyPickedTokenTx] at hc
  split at hc
  · split at hc
    · simp only [Option.some.injEq] at hc
      subst hc
      simp only [List.mem_singleton] at he
      subst he
      exact ⟨rfl, rfl, rfl⟩
    · simp at hc
  · simp at hc

theorem mem_of_mem_sortedStableTxs (s : BlockscoutState)
    (g : List BlockscoutTransaction) (tx : BlockscoutTransaction)
    (h : tx ∈ sortedStableTxs s g) : tx ∈ g := by
  unfold sortedStableTxs at h
  exact List.mem_of_mem_filter (List.mem_mergeSort.mp h)

theorem classifyFeedGroup_mem_units (env : Env) (s : BlockscoutState)
    (user txh : String) (g : List BlockscoutTransaction)
    (l : List FeedEvent) (e : FeedEvent)
    (hc : classifyFeedGroup env s user txh g = some l) (he : e ∈ l) :
    ∃ tx ∈ g, e.timestamp = toNum tx.timeStamp ∧ e.block = toNum tx.blockNumber := by
  match g with
  | [] => simp [classifyFeedGroup] at hc
  | [t0] => exact ⟨t0, by simp, feedGroupTransfer_units env s user txh t0 l e hc he⟩
  | t0 :: t1 :: t2 :: rest =>
    exact ⟨t0, by simp, feedGroupTransfer_units env s user txh t0 l e hc he⟩
  | [t0, t1] =>
    simp only [classifyFeedGroup] at hc
    by_cases hcnd : jsToLower t0.fromAddr = user
    · rw [if_pos hcnd, if_pos hcnd] at hc
      split at hc
      · simp only [Option.some.injEq] at hc
        subst hc
        simp only [List.mem_singleton] at he
        subst he
        exact ⟨t0, by simp, rfl, rfl⟩
      · simp at hc
    · rw [if_neg hcnd, if_neg hcnd] at hc
      split at hc
      · simp only [Option.some.injEq] at hc
        subst hc
        simp only [List.mem_singleton] at he
        subst he
        exact ⟨t1, by simp, rfl, rfl⟩
      · simp at hc

theorem classifyTokenGroup_mem_units (env : Env) (s : BlockscoutState)
    (user txh tok : String) (g : List BlockscoutTransaction)
    (l : List TokenEvent) (e : TokenEvent)
    (hc : classifyTokenGroup env s user txh tok g = some l) (he : e ∈ l) :
    ∃ tx ∈ g, e.timestamp = toNum tx.timeStamp * 1000 ∧ e.block = tx.blockNumber ∧
      e.amount.timestamp = e.timestamp := by
  match g with
  | [t0, t1] =>
    simp only [classifyTokenGroup] at hc
    by_cases hcnd : jsToLower t0.fromAddr = user
    · rw [if_pos hcnd, if_pos hcnd] at hc
      split at hc
      · simp only [Option.some.injEq] at hc
        subst hc
        simp only [List.mem_singleton] at he
        subst he
        exact ⟨t0, by simp, rfl, rfl, rfl⟩
      · simp only [Option.some.injEq] at hc
        subst hc
        simp at he
    · rw [if_neg hcnd, if_neg hcnd] at hc
      split at hc
      · simp only [Option.some.injEq] at hc
        subst hc
        simp only [List.mem_singleton] at he
        subst he
        exact ⟨t1, by simp, rfl, rfl, rfl⟩
      · simp only [Option.some.injEq] at hc
        subst hc
        simp at he
  | [] =>
    simp only [classifyTokenGroup] at hc
    cases hp : pickTransferTx (sortedStableTxs s []) with
    | none =>
      unfold tokenGroupFallback at hc
      rw [hp] at hc
      simp only [Option.some.injEq] at hc
      subst hc
      simp at he
    | some ev =>
      unfold tokenGroupFallback at hc
      rw [hp] at hc
      have hmem := mem_of_mem_sortedStableTxs s [] ev (pickTransferTx_mem _ ev hp)
      exact ⟨ev, hmem, classifyPickedTokenTx_units env s user txh ev l e hc he⟩
  | [t0] =>
    cases hp : pickTransferTx (sortedStableTxs s [t0]) with
    | none =>
      have : classifyTokenGroup env s user txh tok [t0] =
          tokenGroupFallback env s user txh [t0] := rfl
      rw [this] at hc
      unfold tokenGroupFallback at hc
      rw [hp] at hc
      simp only [Option.some.injEq] at hc
      subst hc
      simp at he
    | some ev =>
      have : classifyTokenGroup env s user txh tok [t0] =
          tokenGroupFallback env s user txh [t0] := rfl
      rw [this] at hc
      unfold tokenGroupFallback at hc
      rw [hp] at hc
      have hmem := mem_of_mem_sortedStableTxs s [t0] ev (pickTransferTx_mem _ ev hp)
      exact ⟨ev, hmem, classifyPickedTokenTx_units env s user txh ev l e hc he⟩
  | t0 :: t1 :: t2 :: rest =>
    cases hp : pickTransferTx (sortedStableTxs s (t0 :: t1 :: t2 :: rest)) with
    | none =>
      have : classifyTokenGroup env s user txh tok (t0 :: t1 :: t2 :: rest) =
          tokenGroupFallback env s user txh (t0 :: t1 :: t2 :: rest) := rfl
      rw [this] at hc
      unfold tokenGroupFallback at hc
      rw [hp] at hc
      simp only [Option.some.injEq] at hc
      subst hc
      simp at he
    | some ev =>
      have : classifyTokenGroup env s user txh tok (t0 :: t1 :: t2 :: rest) =
          tokenGroupFallback env s user txh (t0 :: t1 :: t2 :: rest) := rfl
      rw [this] at hc
      unfold tokenGroupFallback at hc
      rw [hp] at hc
      have hmem := mem_of_mem_sortedStableTxs s _ ev (pickTransferTx_mem _ ev hp)
      exact ⟨ev, hmem, classifyPickedTokenTx_units env s user txh ev l e hc he⟩

theorem buildFeedRewards_mem_units (env : Env) (s0 : BlockscoutState)
    (f : ContractAddresses) (raws : List BlockscoutTransaction)
    (l : List FeedEvent) (e : FeedEvent)
    (hc : buildFeedRewards env s0 f raws = some l) (he : e ∈ l) :
    ∃ tx ∈ raws, e.timestamp = toNum tx.timeStamp ∧ e.block = toNum tx.blockNumber := by
  simp only [buildFeedRewards] at hc
  rcases concatMapM_mem _ _ _ hc e he with ⟨t, ht, es, hfe, hein⟩
  have htr : t ∈ raws := List.mem_of_mem_filter ht
  split at hfe
  · simp only [Option.some.injEq] at hfe
    subst hfe
    simp only [List.mem_singleton] at hein
    subst hein
    exact ⟨t, htr, rfl, rfl⟩
  · simp at hfe

/-- C7 counterexample: the same single stable-token row classified by the
general feed variant carries timestamp 10 (unix seconds) and integer block
99, while the token-scoped variant carries timestamp 10000 = 10 × 1000
(milliseconds, also in its amount) and the raw `blockNumber` string — not
the "same seconds unit". -/
theorem tokenVariant_timestamp_milliseconds :
    classifyFeedGroup sampleEnv sampleState "0xaaa" "h1" [stableRow] =
      some [FeedEvent.transfer EventTypes.SENT 10 99
        ((stableRow.value : ℚ) / WEI_PER_GOLD) "0xbbb" "" "cUSD" "h1"] ∧
    classifyTokenGroup sampleEnv sampleState "0xaaa" "h1" "cUSD" [stableRow] =
      some [TokenEvent.transfer EventTypes.SENT 10000 "99"
        ⟨(-1 : ℚ) * (stableRow.value : ℚ) / WEI_PER_GOLD, "cUSD", 10000⟩
        "0xbbb" "" "h1"] ∧
    toNum stableRow.timeStamp = 10 ∧ (10000 : ℕ) ≠ 10 := by
  refine ⟨by rfl, ?_, by decide, by decide⟩
  have hf : List.filter (isStableTokenTx sampleState) [stableRow] = [stableRow] := by
    decide
  have hs : sortedStableTxs sampleState [stableRow] = [stableRow] := by
    rw [sortedStableTxs, hf, List.mergeSort_singleton]
  have h1 : classifyTokenGroup sampleEnv sampleState "0xaaa" "h1" "cUSD" [stableRow] =
      tokenGroupFallback sampleEnv sampleState "0xaaa" "h1" [stableRow] := rfl
  rw [h1, tokenGroupFallback, hs]
  rfl

/-- C7 (amended): every event of the general feed variant carries its row's
`timeStamp` as a number of unix seconds and its `blockNumber` as an integer
(likewise the rewards feed); the token-scoped variant instead carries the
parsed `timeStamp` multiplied by 1000 (milliseconds) — the same value
repeated in its amount — and the raw `blockNumber` string. -/
theorem event_timestamp_units (env : Env) (s s0 : BlockscoutState)
    (f : ContractAddresses) (user txh tok : String)
    (g raws : List BlockscoutTransaction) :
    (∀ l e, classifyFeedGroup env s user txh g = some l → e ∈ l →
      ∃ tx ∈ g, e.timestamp = toNum tx.timeStamp ∧ e.block = toNum tx.blockNumber) ∧
    (∀ l e, classifyTokenGroup env s user txh tok g = some l → e ∈ l →
      ∃ tx ∈ g, e.timestamp = toNum tx.timeStamp * 1000 ∧ e.block = tx.blockNumber ∧
        e.amount.timestamp = e.timestamp) ∧
    (∀ l e, buildFeedRewards env s0 f raws = some l → e ∈ l →
      ∃ tx ∈ raws, e.timestamp = toNum tx.timeStamp ∧ e.block = toNum tx.blockNumber) :=
  ⟨fun l e hc he => classifyFeedGroup_mem_units env s user txh g l e hc he,
    fun l e hc he => classifyTokenGroup_mem_units env s user txh tok g l e hc he,
    fun l e hc he => buildFeedRewards_mem_units env s0 f raws l e hc he⟩

/-- C7 witness: the feed-variant part of the unit statement evaluated on a
concrete single-row group. -/
theorem event_timestamp_units_witness :
    ∃ tx ∈ [stableRow],
      (FeedEvent.transfer EventTypes.SENT 10 99
        ((stableRow.value : ℚ) / WEI_PER_GOLD) "0xbbb" "" "cUSD" "h1").timestamp =
          toNum tx.timeStamp ∧
      (FeedEvent.transfer EventTypes.SENT 10 99
        ((stableRow.value : ℚ) / WEI_PER_GOLD) "0xbbb" "" "cUSD" "h1").block =
          toNum tx.blockNumber :=
  (event_timestamp_units sampleEnv sampleState sampleState sampleAddresses
    "0xaaa" "h1" "cUSD" [stableRow] []).1 _ _ (by rfl)
    (List.mem_singleton.mpr (by rfl))

/-- C5: each feed variant returns exactly the stable descending-timestamp
sort of the events it built in group-processing order: the output is a
permutation of the built (for the token variant: built-and-filtered) events,
it is pairwise descending in timestamp, and for every fixed timestamp the
output's sublist at that timestamp equals the input's (stability: ties keep
processing order). -/
theorem feeds_sorted_and_stable (env : Env) (s0 : BlockscoutState)
    (f : ContractAddresses) (addr tok : String)
    (raws : List BlockscoutTransaction)
    (preF preR : List FeedEvent) (preT : List TokenEvent)
    (hF : buildFeedEvents env s0 f addr raws = some preF)
    (hR : buildFeedRewards env s0 f raws = some preR)
    (hT : buildTokenEvents env s0 f addr tok raws = some preT) :
    (getFeedEvents env s0 f addr raws = some (preF.mergeSort feedTsDesc) ∧
      (preF.mergeSort feedTsDesc).Perm preF ∧
      List.Pairwise (fun a b => b.timestamp ≤ a.timestamp)
        (preF.mergeSort feedTsDesc) ∧
      ∀ t, (preF.mergeSort feedTsDesc).filter (fun e => e.timestamp == t) =
        preF.filter (fun e => e.timestamp == t)) ∧
    (getFeedRewards env s0 f raws = some (preR.mergeSort feedTsDesc) ∧
      (preR.mergeSort feedTsDesc).Perm preR ∧
      List.Pairwise (fun a b => b.timestamp ≤ a.timestamp)
        (preR.mergeSort feedTsDesc) ∧
      ∀ t, (preR.mergeSort feedTsDesc).filter (fun e => e.timestamp == t) =
        preR.filter (fun e => e.timestamp == t)) ∧
    (getTokenTransactions env s0 f addr tok raws =
        some ((preT.filter (fun e => e.amount.currencyCode == tok)).mergeSort
          tokenTsDesc) ∧
      ((preT.filter (fun e => e.amount.currencyCode == tok)).mergeSort
        tokenTsDesc).Perm (preT.filter (fun e => e.amount.currencyCode == tok)) ∧
      List.Pairwise (fun a b => b.timestamp ≤ a.timestamp)
        ((preT.filter (fun e => e.amount.currencyCode == tok)).mergeSort
          tokenTsDesc) ∧
      ∀ t, ((preT.filter (fun e => e.amount.currencyCode == tok)).mergeSort
          tokenTsDesc).filter (fun e => e.timestamp == t) =
        (preT.filter (fun e => e.amount.currencyCode == tok)).filter
          (fun e => e.timestamp == t)) := by
  have specF := mergeSort_desc_key_spec FeedEvent.timestamp feedTsDesc
    (fun _ _ => rfl) preF
  have specR := mergeSort_desc_key_spec FeedEvent.timestamp feedTsDesc
    (fun _ _ => rfl) preR
  have specT := mergeSort_desc_key_spec TokenEvent.timestamp tokenTsDesc
    (fun _ _ => rfl) (preT.filter (fun e => e.amount.currencyCode == tok))
  refine ⟨⟨?_, specF.1, specF.2.1, specF.2.2⟩,
    ⟨?_, specR.1, specR.2.1, specR.2.2⟩,
    ⟨?_, specT.1, specT.2.1, specT.2.2⟩⟩
  · simp only [getFeedEvents, hF, Option.map]
  · simp only [getFeedRewards, hR, Option.map]
  · simp only [getTokenTransactions, hT, Option.map]

/-- C5 witness: the pipeline equality on a concrete two-row exchange group
(all three builds succeed without any throw). -/
theorem feeds_sorted_and_stable_witness :
    getFeedEvents sampleEnv sampleState sampleAddresses "0xaaa"
        [stableRow, goldRow] =
      some ([FeedEvent.exchange (toNum stableRow.timeStamp)
        (toNum stableRow.blockNumber) "cUSD" ((stableRow.value : ℚ) / WEI_PER_GOLD)
        "cGLD" ((goldRow.value : ℚ) / WEI_PER_GOLD) "h1"].mergeSort feedTsDesc) :=
  ((feeds_sorted_and_stable sampleEnv sampleState sampleAddresses "0xaaa" "cUSD"
    [stableRow, goldRow] _ _ _ (by rfl) (by rfl) (by rfl)).1).1

theorem normTx_fields (t t' : BlockscoutTransaction) (h : normTx t = normTx t') :
    jsToLower t.fromAddr = jsToLower t'.fromAddr ∧
    jsToLower t.toAddr = jsToLower t'.toAddr ∧
    jsToLower t.contractAddress = jsToLower t'.contractAddress ∧
    t.value = t'.value ∧ t.tokenSymbol = t'.tokenSymbol ∧
    t.timeStamp = t'.timeStamp ∧ t.input = t'.input ∧ t.hash = t'.hash ∧
    t.gasUsed = t'.gasUsed ∧ t.gasPrice = t'.gasPrice ∧
    t.blockNumber = t'.blockNumber := by
  cases t
  cases t'
  simp only [normTx, BlockscoutTransaction.mk.injEq] at h
  obtain ⟨hv, hsym, hto, hts, hi, hh, hgu, hgp, hf, hca, hbn⟩ := h
  exact ⟨hf, hto, hca, hv, hsym, hts, hi, hh, hgu, hgp, hbn⟩

theorem getTokenAtAddress_lower_congr (s : BlockscoutState) (a a' : String)
    (h : jsToLower a = jsToLower a') :
    getTokenAtAddress s a = getTokenAtAddress s a' := by
  simp only [getTokenAtAddress, h]

theorem feedGroupTransfer_norm_congr (env : Env) (s : BlockscoutState)
    (user txh : String) (t t' : BlockscoutTransaction) (h : normTx t = normTx t') :
    feedGroupTransfer env s user txh t = feedGroupTransfer env s user txh t' := by
  obtain ⟨hf, ht, hca, hv, -, hts, hi, -, -, -, hbn⟩ := normTx_fields t t' h
  simp only [feedGroupTransfer, hf, ht, hv, hts, hi, hbn,
    getTokenAtAddress_lower_congr s t.contractAddress t'.contractAddress hca]

theorem classifyFeedGroup_norm_congr (env : Env) (s : BlockscoutState)
    (user txh : String) :
    ∀ (g g' : List BlockscoutTransaction), g.map normTx = g'.map normTx →
      classifyFeedGroup env s user txh g = classifyFeedGroup env s user txh g' := by
  intro g g' h
  cases g with
  | nil =>
    cases g' with
    | nil => rfl
    | cons a b => simp at h
  | cons t0 r =>
    cases g' with
    | nil => simp at h
    | cons t0' r' =>
      simp only [List.map_cons, List.cons.injEq] at h
      obtain ⟨hn0, hr⟩ := h
      cases r with
      | nil =>
        cases r' with
        | nil => exact feedGroupTransfer_norm_congr env s user txh t0 t0' hn0
        | cons b r2 => simp at hr
      | cons t1 r2 =>
        cases r' with
        | nil => simp at hr
        | cons t1' r2' =>
          simp only [List.map_cons, List.cons.injEq] at hr
          obtain ⟨hn1, hr2⟩ := hr
          cases r2 with
          | nil =>
            cases r2' with
            | cons c r3 => simp at hr2
            | nil =>
              obtain ⟨hf0, -, hca0, hv0, -, hts0, -, -, -, -, hbn0⟩ :=
                normTx_fields t0 t0' hn0
              obtain ⟨-, -, hca1, hv1, -, hts1, -, -, -, -, hbn1⟩ :=
                normTx_fields t1 t1' hn1
              simp only [classifyFeedGroup, hf0]
              by_cases hc : jsToLower t0'.fromAddr = user
              · simp only [if_pos hc, hv0, hts0, hbn0, hv1, hts1, hbn1,
                  getTokenAtAddress_lower_congr s t0.contractAddress t0'.contractAddress
                    hca0,
                  getTokenAtAddress_lower_congr s t1.contractAddress t1'.contractAddress
                    hca1]
              · simp only [if_neg hc, hv0, hts0, hbn0, hv1, hts1, hbn1,
                  getTokenAtAddress_lower_congr s t0.contractAddress t0'.contractAddress
                    hca0,
                  getTokenAtAddress_lower_congr s t1.contractAddress t1'.contractAddress
                    hca1]
          | cons t2 r3 =>
            cases r2' with
            | nil => simp at hr2
            | cons t2' r3' =>
              exact feedGroupTransfer_norm_congr env s user txh t0 t0' hn0

theorem sortedStableTxs_norm (s : BlockscoutState)
    (g g' : List BlockscoutTransaction) (h : g.map normTx = g'.map normTx) :
    (sortedStableTxs s g).map normTx = (sortedStableTxs s g').map normTx := by
  have hfac : ∀ l : List BlockscoutTransaction,
      (l.filter (isStableTokenTx s)).map normTx =
        (l.map normTx).filter (isStableNormedTx s) := by
    intro l
    rw [List.filter_map]
    rfl
  have hms : ∀ l : List BlockscoutTransaction,
      ((l.filter (isStableTokenTx s)).mergeSort byValueDesc).map normTx =
        ((l.map normTx).filter (isStableNormedTx s)).mergeSort byValueDesc := by
    intro l
    rw [@List.map_mergeSort BlockscoutTransaction BlockscoutTransaction byValueDesc
      byValueDesc normTx (l.filter (isStableTokenTx s)) (fun a _ b _ => rfl), hfac]
  unfold sortedStableTxs
  rw [hms, hms, h]

theorem pickTransferTx_norm (l l' : List BlockscoutTransaction)
    (h : l.map normTx = l'.map normTx) :
    Option.map normTx (pickTransferTx l) = Option.map normTx (pickTransferTx l') := by
  cases l with
  | nil =>
    cases l' with
    | nil => rfl
    | cons a b => simp at h
  | cons a r =>
    cases l' with
    | nil => simp at h
    | cons a' r' =>
      simp only [List.map_cons, List.cons.injEq] at h
      obtain ⟨hna, hr⟩ := h
      cases r with
      | nil =>
        cases r' with
        | nil => simp only [pickTransferTx, Option.map, hna]
        | cons b2 r2 => simp at hr
      | cons b r2 =>
        cases r' with
        | nil => simp at hr
        | cons b' r2' =>
          simp only [List.map_cons, List.cons.injEq] at hr
          obtain ⟨hnb, hr2⟩ := hr
          cases r2 with
          | nil =>
            cases r2' with
            | nil => rfl
            | cons c2 r3 => simp at hr2
          | cons c r3 =>
            cases r2' with
            | nil => simp at hr2
            | cons c' r3' =>
              simp only [List.map_cons, List.cons.injEq] at hr2
              obtain ⟨hnc, hr3⟩ := hr2
              cases r3 with
              | nil =>
                cases r3' with
                | cons d r4 => simp at hr3
                | nil =>
                  obtain ⟨-, -, -, hva, -, -, -, -, hgua, hgpa, -⟩ :=
                    normTx_fields a a' hna
                  obtain ⟨-, -, -, hvb, -, -, -, -, -, -, -⟩ :=
                    normTx_fields b b' hnb
                  obtain ⟨-, -, -, hvc, -, -, -, -, -, -, -⟩ :=
                    normTx_fields c c' hnc
                  simp only [pickTransferTx, hva, hvb, hvc, hgua, hgpa]
                  by_cases h1 : a'.value + b'.value = a'.gasUsed * a'.gasPrice
                  · simp only [if_pos h1, Option.map, hnc]
                  · by_cases h2 : a'.value + c'.value = a'.gasUsed * a'.gasPrice
                    · simp only [if_neg h1, if_pos h2, Option.map, hnb]
                    · simp only [if_neg h1, if_neg h2, Option.map, hna]
              | cons d r4 =>
                cases r3' with
                | nil => simp at hr3
                | cons d' r4' => rfl

theorem classifyPickedTokenTx_norm_congr (env : Env) (s : BlockscoutState)
    (user txh : String) (t t' : BlockscoutTransaction) (h : normTx t = normTx t') :
    classifyPickedTokenTx env s user txh t = classifyPickedTokenTx env s user txh t' := by
  obtain ⟨hf, ht, -, hv, hsym, hts, hi, -, -, -, hbn⟩ := normTx_fields t t' h
  simp only [classifyPickedTokenTx, hf, ht, hv, hsym, hts, hi, hbn]

theorem tokenGroupFallback_norm_congr (env : Env) (s : BlockscoutState)
    (user txh : String) (g g' : List BlockscoutTransaction)
    (h : g.map normTx = g'.map normTx) :
    tokenGroupFallback env s user txh g = tokenGroupFallback env s user txh g' := by
  have hp := pickTransferTx_norm (sortedStableTxs s g) (sortedStableTxs s g')
    (sortedStableTxs_norm s g g' h)
  unfold tokenGroupFallback
  cases hg : pickTransferTx (sortedStableTxs s g) with
  | none =>
    cases hg' : pickTransferTx (sortedStableTxs s g') with
    | none => rfl
    | some e' => rw [hg, hg'] at hp; simp at hp
  | some e =>
    cases hg' : pickTransferTx (sortedStableTxs s g') with
    | none => rw [hg, hg'] at hp; simp at hp
    | some e' =>
      rw [hg, hg'] at hp
      simp only [Option.map, Option.some.injEq] at hp
      exact classifyPickedTokenTx_norm_congr env s user txh e e' hp

theorem classifyTokenGroup_norm_congr (env : Env) (s : BlockscoutState)
    (user txh tok : String) :
    ∀ (g g' : List BlockscoutTransaction), g.map normTx = g'.map normTx →
      classifyTokenGroup env s user txh tok g =
        classifyTokenGroup env s user txh tok g' := by
  intro g g' h
  cases g with
  | nil =>
    cases g' with
    | nil => rfl
    | cons a b => simp at h
  | cons t0 r =>
    cases g' with
    | nil => simp at h
    | cons t0' r' =>
      simp only [List.map_cons, List.cons.injEq] at h
      obtain ⟨hn0, hr⟩ := h
      cases r with
      | nil =>
        cases r' with
        | nil =>
          exact tokenGroupFallback_norm_congr env s user txh [t0] [t0'] (by simp [hn0])
        | cons b r2 => simp at hr
      | cons t1 r2 =>
        cases r' with
        | nil => simp at hr
        | cons t1' r2' =>
          simp only [List.map_cons, List.cons.injEq] at hr
          obtain ⟨hn1, hr2⟩ := hr
          cases r2 with
          | nil =>
            cases r2' with
            | cons c r3 => simp at hr2
            | nil =>
              obtain ⟨hf0, -, -, hv0, hsym0, hts0, -, -, -, -, hbn0⟩ :=
                normTx_fields t0 t0' hn0
              obtain ⟨-, -, -, hv1, hsym1, hts1, -, -, -, -, hbn1⟩ :=
                normTx_fields t1 t1' hn1
              simp only [classifyTokenGroup, hf0]
              by_cases hc : jsToLower t0'.fromAddr = user
              · simp only [if_pos hc, hsym0, hsym1, hts0, hbn0, hv0, hv1]
                by_cases hs0 : t0'.tokenSymbol = tok
                · simp only [if_pos hs0, hv0, hsym0]
                · simp only [if_neg hs0, hv1, hsym1]
              · simp only [if_neg hc, hsym0, hsym1, hts1, hbn1, hv0, hv1]
                by_cases hs1 : t1'.tokenSymbol = tok
                · simp only [if_pos hs1, hv1, hsym1]
                · simp only [if_neg hs1, hv0, hsym0]
          | cons t2 r3 =>
            cases r2' with
            | nil => simp at hr2
            | cons t2' r3' =>
              exact tokenGroupFallback_norm_congr env s user txh
                (t0 :: t1 :: t2 :: r3) (t0' :: t1' :: t2' :: r3')
                (by simp only [List.map_cons, List.cons.injEq] at hr2 ⊢
                    exact ⟨hn0, hn1, hr2⟩)

theorem insertTx_norm : ∀ (m m' : List (String × List BlockscoutTransaction))
    (tx tx' : BlockscoutTransaction), m.map normGroup = m'.map normGroup →
    normTx tx = normTx tx' →
    (insertTx m tx).map normGroup = (insertTx m' tx').map normGroup := by
  intro m
  induction m with
  | nil =>
    intro m' tx tx' hm hn
    cases m' with
    | nil =>
      have hh : tx.hash = tx'.hash := (normTx_fields tx tx' hn).2.2.2.2.2.2.2.1
      simp [insertTx, normGroup, hh, hn]
    | cons q m2 => simp at hm
  | cons p rest ih =>
    intro m' tx tx' hm hn
    cases m' with
    | nil => simp at hm
    | cons p' rest' =>
      simp only [List.map_cons, List.cons.injEq] at hm
      obtain ⟨hp, hrest⟩ := hm
      obtain ⟨h1, gr⟩ := p
      obtain ⟨h1', gr'⟩ := p'
      have hh : h1 = h1' := congrArg Prod.fst hp
      have hgr : gr.map normTx = gr'.map normTx := congrArg Prod.snd hp
      have htx : tx.hash = tx'.hash := (normTx_fields tx tx' hn).2.2.2.2.2.2.2.1
      simp only [insertTx]
      by_cases hcond : h1 = tx.hash
      · rw [if_pos hcond, if_pos (show h1' = tx'.hash by rw [← hh, ← htx]; exact hcond)]
        simp only [List.map_cons, List.cons.injEq]
        exact ⟨by simp [normGroup, hh, hgr, hn], hrest⟩
      · rw [if_neg hcond, if_neg (show ¬h1' = tx'.hash by rw [← hh, ← htx]; exact hcond)]
        simp only [List.map_cons, List.cons.injEq]
        exact ⟨hp, ih rest' tx tx' hrest hn⟩

theorem groupByHash_norm (raws raws' : List BlockscoutTransaction)
    (h : raws.map normTx = raws'.map normTx) :
    (groupByHash raws).map normGroup = (groupByHash raws').map normGroup := by
  suffices hgen : ∀ (xs xs' : List BlockscoutTransaction)
      (m m' : List (String × List BlockscoutTransaction)),
      xs.map normTx = xs'.map normTx → m.map normGroup = m'.map normGroup →
      (xs.foldl insertTx m).map normGroup = (xs'.foldl insertTx m').map normGroup by
    exact hgen raws raws' [] [] h rfl
  intro xs
  induction xs with
  | nil =>
    intro xs' m m' hx hm
    cases xs' with
    | nil => simpa using hm
    | cons a b => simp at hx
  | cons x r ih =>
    intro xs' m m' hx hm
    cases xs' with
    | nil => simp at hx
    | cons x' r' =>
      simp only [List.map_cons, List.cons.injEq] at hx
      obtain ⟨hnx, hr⟩ := hx
      simp only [List.foldl_cons]
      exact ih r' (insertTx m x) (insertTx m' x') hr (insertTx_norm m m' x x' hm hnx)

theorem concatMapM_congr {α β γ : Type} (f : α → β) (fn : α → Option (List γ))
    (hfn : ∀ a a', f a = f a' → fn a = fn a') :
    ∀ (xs xs' : List α), xs.map f = xs'.map f →
      concatMapM fn xs = concatMapM fn xs' := by
  intro xs
  induction xs with
  | nil =>
    intro xs' h
    cases xs' with
    | nil => rfl
    | cons a b => simp at h
  | cons x r ih =>
    intro xs' h
    cases xs' with
    | nil => simp at h
    | cons x' r' =>
      simp only [List.map_cons, List.cons.injEq] at h
      obtain ⟨hx, hr⟩ := h
      simp only [concatMapM]
      rw [hfn x x' hx, ih r' hr]

theorem buildFeedEvents_norm_congr (env : Env) (s0 : BlockscoutState)
    (f : ContractAddresses) (addr addr' : String)
    (raws raws' : List BlockscoutTransaction)
    (haddr : jsToLower addr = jsToLower addr')
    (hraws : raws.map normTx = raws'.map normTx) :
    buildFeedEvents env s0 f addr raws = buildFeedEvents env s0 f addr' raws' := by
  simp only [buildFeedEvents, haddr]
  exact concatMapM_congr normGroup
    (fun p => classifyFeedGroup env (ensureTokenAddresses s0 f).1 (jsToLower addr') p.1 p.2)
    (fun a a' hp => by
      have hh : a.1 = a'.1 := by
        have h2 := congrArg Prod.fst hp
        simpa [normGroup] using h2
      have hg : a.2.map normTx = a'.2.map normTx := by
        have h2 := congrArg Prod.snd hp
        simpa [normGroup] using h2
      show classifyFeedGroup env (ensureTokenAddresses s0 f).1 (jsToLower addr')
          a.1 a.2 =
        classifyFeedGroup env (ensureTokenAddresses s0 f).1 (jsToLower addr')
          a'.1 a'.2
      rw [hh]
      exact classifyFeedGroup_norm_congr env _ (jsToLower addr') a'.1 a.2 a'.2 hg)
    (groupByHash raws) (groupByHash raws') (groupByHash_norm raws raws' hraws)

theorem buildTokenEvents_norm_congr (env : Env) (s0 : BlockscoutState)
    (f : ContractAddresses) (addr addr' tok : String)
    (raws raws' : List BlockscoutTransaction)
    (haddr : jsToLower addr = jsToLower addr')
    (hraws : raws.map normTx = raws'.map normTx) :
    buildTokenEvents env s0 f addr tok raws =
      buildTokenEvents env s0 f addr' tok raws' := by
  simp only [buildTokenEvents, haddr]
  exact concatMapM_congr normGroup
    (fun p => classifyTokenGroup env (ensureTokenAddresses s0 f).1 (jsToLower addr')
      p.1 tok p.2)
    (fun a a' hp => by
      have hh : a.1 = a'.1 := by
        have h2 := congrArg Prod.fst hp
        simpa [normGroup] using h2
      have hg : a.2.map normTx = a'.2.map normTx := by
        have h2 := congrArg Prod.snd hp
        simpa [normGroup] using h2
      show classifyTokenGroup env (ensureTokenAddresses s0 f).1 (jsToLower addr')
          a.1 tok a.2 =
        classifyTokenGroup env (ensureTokenAddresses s0 f).1 (jsToLower addr')
          a'.1 tok a'.2
      rw [hh]
      exact classifyTokenGroup_norm_congr env _ (jsToLower addr') a'.1 tok a.2 a'.2 hg)
    (groupByHash raws) (groupByHash raws') (groupByHash_norm raws raws' hraws)

theorem buildFeedRewards_norm_congr (env : Env) (s0 : BlockscoutState)
    (f : ContractAddresses) (raws raws' : List BlockscoutTransaction)
    (hraws : raws.map normTx = raws'.map normTx) :
    buildFeedRewards env s0 f raws = buildFeedRewards env s0 f raws' := by
  simp only [buildFeedRewards]
  have hfac : ∀ l : List BlockscoutTransaction,
      (l.filter (fun t => jsToLower t.fromAddr = env.VERIFICATION_REWARDS_ADDRESS)).map
          normTx =
        (l.map normTx).filter (fun t => t.fromAddr = env.VERIFICATION_REWARDS_ADDRESS) := by
    intro l
    rw [List.filter_map]
    rfl
  have hfilters :
      (raws.filter (fun t => jsToLower t.fromAddr = env.VERIFICATION_REWARDS_ADDRESS)).map
          normTx =
        (raws'.filter (fun t => jsToLower t.fromAddr = env.VERIFICATION_REWARDS_ADDRESS)).map
          normTx := by
    rw [hfac, hfac, hraws]
  exact concatMapM_congr normTx _
    (fun t t' hn => by
      obtain ⟨-, -, hca, hv, -, hts, hi, hh, -, -, hbn⟩ := normTx_fields t t' hn
      simp only [hv, hts, hi, hh, hbn,
        getTokenAtAddress_lower_congr _ t.contractAddress t'.contractAddress hca])
    _ _ hfilters

/-- C9: every address comparison of the classifier and registry is
case-insensitive in its inputs: for any registry lookup input, any row, any
viewing address, and any raw-row list that differ from another only in the
letter case of address fields (`from`, `to`, `contractAddress`, and the
queried account address), the lookup (`getTokenAtAddress`), the stable-token
filter, and all three feed pipelines produce identical results. -/
theorem address_comparisons_case_insensitive (env : Env) (s s0 : BlockscoutState)
    (f : ContractAddresses) (a a' addr addr' tok : String)
    (tx tx' : BlockscoutTransaction) (raws raws' : List BlockscoutTransaction)
    (ha : jsToLower a = jsToLower a')
    (htx : normTx tx = normTx tx')
    (haddr : jsToLower addr = jsToLower addr')
    (hraws : raws.map normTx = raws'.map normTx) :
    getTokenAtAddress s a = getTokenAtAddress s a' ∧
    isStableTokenTx s tx = isStableTokenTx s tx' ∧
    getFeedEvents env s0 f addr raws = getFeedEvents env s0 f addr' raws' ∧
    getFeedRewards env s0 f raws = getFeedRewards env s0 f raws' ∧
    getTokenTransactions env s0 f addr tok raws =
      getTokenTransactions env s0 f addr' tok raws' := by
  refine ⟨getTokenAtAddress_lower_congr s a a' ha, ?_, ?_, ?_, ?_⟩
  · have h1 : isStableTokenTx s tx = isStableNormedTx s (normTx tx) := rfl
    have h2 : isStableTokenTx s tx' = isStableNormedTx s (normTx tx') := rfl
    rw [h1, h2, htx]
  · simp only [getFeedEvents,
      buildFeedEvents_norm_congr env s0 f addr addr' raws raws' haddr hraws]
  · simp only [getFeedRewards, buildFeedRewards_norm_congr env s0 f raws raws' hraws]
  · simp only [getTokenTransactions,
      buildTokenEvents_norm_congr env s0 f addr addr' tok raws raws' haddr hraws]

/-- C9 witness: the case-insensitivity statement evaluated on concrete
case-variant inputs (`0xGOLD`/`0xgold`, `0xAAA`/`0xaaa`, and a row whose
three address fields change case). -/
theorem address_comparisons_case_insensitive_witness :
    getTokenAtAddress sampleState "0xGOLD" = getTokenAtAddress sampleState "0xgold" ∧
    isStableTokenTx sampleState stableRow = isStableTokenTx sampleState stableRowUpper ∧
    getFeedEvents sampleEnv sampleState sampleAddresses "0xAAA" [stableRow] =
      getFeedEvents sampleEnv sampleState sampleAddresses "0xaaa" [stableRowUpper] ∧
    getFeedRewards sampleEnv sampleState sampleAddresses [stableRow] =
      getFeedRewards sampleEnv sampleState sampleAddresses [stableRowUpper] ∧
    getTokenTransactions sampleEnv sampleState sampleAddresses "0xAAA" "cUSD"
        [stableRow] =
      getTokenTransactions sampleEnv sampleState sampleAddresses "0xaaa" "cUSD"
        [stableRowUpper] :=
  address_comparisons_case_insensitive sampleEnv sampleState sampleState
    sampleAddresses "0xGOLD" "0xgold" "0xAAA" "0xaaa" "cUSD" stableRow stableRowUpper
    [stableRow] [stableRowUpper] (by decide) (by decide) (by decide) (by decide)
